import Mathlib

/-!
Verification of the Conway's Game of Life engine implemented in
conway.cxx.

The C++ class Conway<T> holds two gridWidth × gridHeight buffers
(newGrid and oldGrid, each a std::vector<std::vector<T>>), the list of
the 8 Moore-neighborhood offsets, and the grid dimensions.  Grids are
modelled as total functions Int → Int → Int: cell (i,j) of the vectors
is the value at (i,j); positions outside [0,width) × [0,height) do not
exist in the vectors and keep the model value 0 for engines produced by
the constructor.  The imperative loops of randomInitialization and
update are modelled as left folds over the list of cell indices in the
same i-major, j-minor order the loops use.
-/

/-- Coordinate pair, modelling the typedef std::tuple<short, short> Coord. -/
structure Coord where
  x : Int
  y : Int
deriving DecidableEq

/-- State of the Conway engine: the two buffers and the dimensions. -/
@[ext]
structure Conway where
  gridWidth : Int
  gridHeight : Int
  newGrid : Int → Int → Int
  oldGrid : Int → Int → Int

/-- The 8 neighbor search coordinates pushed in the constructor. -/
def coords : List (Int × Int) :=
  [(0, 1), (0, -1), (1, 0), (-1, 0), (1, 1), (-1, -1), (1, -1), (-1, 1)]

/-- A successfully constructed engine: two width × height buffers with
every cell dead (the vectors are filled with 0). -/
def conwayInit (width height : Int) : Conway :=
  { gridWidth := width
    gridHeight := height
    newGrid := fun _ _ => 0
    oldGrid := fun _ _ => 0 }

/-- Failure the std::vector fill constructor can raise. -/
inductive AllocError where
  | lengthError
deriving DecidableEq

/-- Conway::Conway(int width, int height).  The constructor performs no
validation of its arguments; it directly allocates
std::vector<std::vector<T>> grid(width, std::vector<T>(height, 0)).
A negative count is converted to a huge size_t by the vector fill
constructor, which then throws length_error (the inner vector, sized by
height, is constructed first); any nonnegative count, including 0,
allocates successfully. -/
def construct (width height : Int) : Except AllocError Conway :=
  if height < 0 then .error .lengthError
  else if width < 0 then .error .lengthError
  else .ok (conwayInit width height)

/-- Conway::verifyCoordBounds: the adjustment applied to a neighbor
coordinate before it is used to index the grid.  Mirrors the two
if/else-if chains of the source. -/
def verifyCoordBounds (gridWidth gridHeight : Int) (cc : Coord) : Coord :=
  let x := if cc.x < 0 then gridWidth - 1 + cc.x
           else if gridWidth ≤ cc.x then cc.x % gridWidth
           else cc.x
  let y := if cc.y < 0 then gridHeight - 1 + cc.y
           else if gridHeight ≤ cc.y then cc.y % gridHeight
           else cc.y
  { x := x, y := y }

/-- One component of verifyCoordBounds (both components receive the
same treatment, with their respective dimension). -/
def wrapCoord (d v : Int) : Int :=
  if v < 0 then d - 1 + v else if d ≤ v then v % d else v

/-- Conway::readGrid: reads a pixel from oldGrid. -/
def readGrid (s : Conway) (cc : Coord) : Int :=
  s.oldGrid cc.x cc.y

/-- Conway::writeGrid: writes a pixel into newGrid. -/
def writeGrid (s : Conway) (cc : Coord) (val : Int) : Conway :=
  { s with newGrid := fun a b => if a = cc.x ∧ b = cc.y then val else s.newGrid a b }

/-- The neighbor-counting inner loop of Conway::update: fold over the 8
offsets, incrementing the counter when the (bounds-adjusted) neighbor
read yields 1. -/
def countLiveNeighbors (s : Conway) (i j : Int) : Int :=
  coords.foldl
    (fun numLiveNeighbors cc =>
      if readGrid s (verifyCoordBounds s.gridWidth s.gridHeight
            { x := i + cc.1, y := j + cc.2 }) = 1
      then numLiveNeighbors + 1 else numLiveNeighbors)
    0

/-- The same neighbor count, as a pure function of the read-source
buffer and the dimensions. -/
def countFrom (g : Int → Int → Int) (w h i j : Int) : Int :=
  coords.foldl
    (fun numLiveNeighbors cc =>
      if g (wrapCoord w (i + cc.1)) (wrapCoord h (j + cc.2)) = 1
      then numLiveNeighbors + 1 else numLiveNeighbors)
    0

/-- The value the transition-rule branches of Conway::update write for
one cell, as a pure function of the read-source buffer. -/
def nextVal (g : Int → Int → Int) (w h i j : Int) : Int :=
  let numLiveNeighbors := countFrom g w h i j
  if g i j ≠ 0 ∧ (numLiveNeighbors = 2 ∨ numLiveNeighbors = 3) then 1
  else if g i j = 0 ∧ numLiveNeighbors = 3 then 1
  else if g i j ≠ 0 then 0
  else 0

/-- Body of the update loop for one cell (i,j): count live neighbors,
read the cell, apply the four transition-rule branches. -/
def updateCell (s : Conway) (i j : Int) : Conway :=
  let idx : Coord := { x := i, y := j }
  let numLiveNeighbors := countLiveNeighbors s i j
  let isAlive := readGrid s idx
  if isAlive ≠ 0 ∧ (numLiveNeighbors = 2 ∨ numLiveNeighbors = 3) then
    writeGrid s idx 1
  else if isAlive = 0 ∧ numLiveNeighbors = 3 then
    writeGrid s idx 1
  else if isAlive ≠ 0 then
    writeGrid s idx 0
  else
    writeGrid s idx 0

/-- One step of the fold modelling the doubly nested update loop. -/
def updateStep (st : Conway) (ij : Int × Int) : Conway :=
  updateCell st ij.1 ij.2

/-- Cells of one grid row i, j ascending: (i,0), (i,1), …, (i,hn-1). -/
def rowCells (i : Int) : Nat → List (Int × Int)
  | 0 => []
  | hn + 1 => rowCells i hn ++ [(i, (hn : Int))]

/-- Cells of rows 0 … wn-1, i-major j-minor: the iteration order of the
doubly nested loops of Conway::update and Conway::randomInitialization. -/
def natCellList : Nat → Nat → List (Int × Int)
  | 0, _ => []
  | wn + 1, hn => natCellList wn hn ++ rowCells (wn : Int) hn

/-- Iteration domain of the nested loops for int dimensions (empty when
a dimension is nonpositive, as for the C++ for-loops). -/
def cellList (w h : Int) : List (Int × Int) :=
  natCellList w.toNat h.toNat

/-- Conway::update: swap the two buffers, then recompute every cell of
the (post-swap) newGrid from the (post-swap) oldGrid. -/
def update (s : Conway) : Conway :=
  let swapped : Conway := { s with newGrid := s.oldGrid, oldGrid := s.newGrid }
  (cellList s.gridWidth s.gridHeight).foldl updateStep swapped

/-- One iteration of the randomInitialization loop: draw b = gen() (the
call counter selects the draw), write 1 into both buffers at the cell if
b == 0 and 0 into both buffers otherwise, advance the call counter. -/
def randStep (gen : Nat → Int) (p : Conway × Nat) (ij : Int × Int) : Conway × Nat :=
  let b := gen p.2
  let st := p.1
  if b = 0 then
    ({ st with
        newGrid := fun a c => if a = ij.1 ∧ c = ij.2 then 1 else st.newGrid a c
        oldGrid := fun a c => if a = ij.1 ∧ c = ij.2 then 1 else st.oldGrid a c },
      p.2 + 1)
  else
    ({ st with
        newGrid := fun a c => if a = ij.1 ∧ c = ij.2 then 0 else st.newGrid a c
        oldGrid := fun a c => if a = ij.1 ∧ c = ij.2 then 0 else st.oldGrid a c },
      p.2 + 1)

/-- Conway::randomInitialization(short sparseness).  The function binds
a uniform_int_distribution(0, sparseness) to a freshly
default-constructed std::default_random_engine; gen k is the value of
the k-th call of that bound generator.  Every cell, in i-major j-minor
order, consumes one draw and receives 1 in both buffers when the draw
is 0, and 0 in both buffers otherwise. -/
def randomInitialization (gen : Nat → Int) (s : Conway) : Conway :=
  ((cellList s.gridWidth s.gridHeight).foldl (randStep gen) (s, 0)).1

/-- A position that exists in the width × height vectors. -/
abbrev inBounds (w h x y : Int) : Prop :=
  0 ≤ x ∧ x < w ∧ 0 ≤ y ∧ y < h

/-- Model-side counterpart of the fact that the C++ vectors have no
cells outside the grid: both buffer functions are 0 off the grid.
Engines produced by the constructor satisfy this. -/
def outZero (s : Conway) : Prop :=
  ∀ x y : Int, ¬ inBounds s.gridWidth s.gridHeight x y →
    s.newGrid x y = 0 ∧ s.oldGrid x y = 0

/-- Grid holding exactly a 2×2 block of live cells with corner (a,b). -/
def blockGrid (a b : Int) : Int → Int → Int :=
  fun x y => if (x = a ∨ x = a + 1) ∧ (y = b ∨ y = b + 1) then 1 else 0

/-- Engine whose both buffers hold the 2×2 block with corner (a,b). -/
def blockState (w h a b : Int) : Conway :=
  { gridWidth := w
    gridHeight := h
    newGrid := blockGrid a b
    oldGrid := blockGrid a b }

/-- Indicator that the wrap of coordinate v lands in the block columns
(or rows) anchored at a. -/
def axInd (d a v : Int) : Int :=
  if wrapCoord d v = a ∨ wrapCoord d v = a + 1 then 1 else 0

/-- Invariant: every cell that exists in the vectors holds 0 or 1, in
both buffers, although the cell type T is a general integral type. -/
def boolInv (s : Conway) : Prop :=
  ∀ i j : Int, inBounds s.gridWidth s.gridHeight i j →
    (s.newGrid i j = 0 ∨ s.newGrid i j = 1) ∧
    (s.oldGrid i j = 0 ∨ s.oldGrid i j = 1)

/-- A sample 3×3 engine state (a vertical blinker in the current
buffer) used to instantiate the theorems at a concrete input. -/
def exEngine : Conway :=
  { gridWidth := 3
    gridHeight := 3
    newGrid := fun x y => if x = 1 ∧ (y = 0 ∨ y = 1 ∨ y = 2) then 1 else 0
    oldGrid := fun _ _ => 0 }

lemma countLiveNeighbors_eq (s : Conway) (i j : Int) :
    countLiveNeighbors s i j = countFrom s.oldGrid s.gridWidth s.gridHeight i j :=
  rfl

lemma updateCell_gridWidth (s : Conway) (i j : Int) :
    (updateCell s i j).gridWidth = s.gridWidth := by
  simp only [updateCell, writeGrid]
  split_ifs <;> rfl

lemma updateCell_gridHeight (s : Conway) (i j : Int) :
    (updateCell s i j).gridHeight = s.gridHeight := by
  simp only [updateCell, writeGrid]
  split_ifs <;> rfl

lemma updateCell_oldGrid (s : Conway) (i j : Int) :
    (updateCell s i j).oldGrid = s.oldGrid := by
  simp only [updateCell, writeGrid]
  split_ifs <;> rfl

lemma updateCell_newGrid (s : Conway) (i j a b : Int) :
    (updateCell s i j).newGrid a b =
      if a = i ∧ b = j then nextVal s.oldGrid s.gridWidth s.gridHeight i j
      else s.newGrid a b := by
  simp only [updateCell, nextVal, writeGrid, readGrid, countLiveNeighbors_eq]
  split_ifs <;> simp_all

lemma foldl_updateStep_gridWidth (l : List (Int × Int)) (st : Conway) :
    (l.foldl updateStep st).gridWidth = st.gridWidth := by
  induction l generalizing st with
  | nil => rfl
  | cons c l ih =>
      rw [List.foldl_cons, ih]
      exact updateCell_gridWidth st c.1 c.2

lemma foldl_updateStep_gridHeight (l : List (Int × Int)) (st : Conway) :
    (l.foldl updateStep st).gridHeight = st.gridHeight := by
  induction l generalizing st with
  | nil => rfl
  | cons c l ih =>
      rw [List.foldl_cons, ih]
      exact updateCell_gridHeight st c.1 c.2

lemma foldl_updateStep_oldGrid (l : List (Int × Int)) (st : Conway) :
    (l.foldl updateStep st).oldGrid = st.oldGrid := by
  induction l generalizing st with
  | nil => rfl
  | cons c l ih =>
      rw [List.foldl_cons, ih]
      exact updateCell_oldGrid st c.1 c.2

lemma foldl_updateStep_newGrid (l : List (Int × Int)) (st : Conway) (a b : Int) :
    (l.foldl updateStep st).newGrid a b =
      if (a, b) ∈ l then nextVal st.oldGrid st.gridWidth st.gridHeight a b
      else st.newGrid a b := by
  induction l generalizing st with
  | nil => simp
  | cons c l ih =>
      rcases c with ⟨cx, cy⟩
      rw [List.foldl_cons, ih]
      rw [show (updateStep st (cx, cy)).oldGrid = st.oldGrid from
            updateCell_oldGrid st cx cy,
          show (updateStep st (cx, cy)).gridWidth = st.gridWidth from
            updateCell_gridWidth st cx cy,
          show (updateStep st (cx, cy)).gridHeight = st.gridHeight from
            updateCell_gridHeight st cx cy]
      by_cases hmem : (a, b) ∈ l
      · simp [hmem]
      · by_cases hab : a = cx ∧ b = cy
        · obtain ⟨h1, h2⟩ := hab
          subst h1
          subst h2
          simp [hmem, updateStep, updateCell_newGrid]
        · have hne : ¬ ((a, b) = (cx, cy)) := by
            intro hcontra
            apply hab
            exact ⟨congrArg Prod.fst hcontra, congrArg Prod.snd hcontra⟩
          simp [hmem, hne, updateStep, updateCell_newGrid, hab]

lemma mem_rowCells (i : Int) (hn : Nat) (x y : Int) :
    (x, y) ∈ rowCells i hn ↔ x = i ∧ 0 ≤ y ∧ y < (hn : Int) := by
  induction hn with
  | zero =>
      simp only [rowCells, List.not_mem_nil, false_iff]
      intro hcontra
      omega
  | succ n ih =>
      simp only [rowCells, List.mem_append, ih, List.mem_singleton, Prod.mk.injEq]
      constructor
      · intro hcase
        rcases hcase with hcase | hcase <;> [skip; skip] <;> omega
      · intro hcase
        omega

lemma mem_natCellList (wn hn : Nat) (x y : Int) :
    (x, y) ∈ natCellList wn hn ↔
      0 ≤ x ∧ x < (wn : Int) ∧ 0 ≤ y ∧ y < (hn : Int) := by
  induction wn with
  | zero =>
      simp only [natCellList, List.not_mem_nil, false_iff]
      intro hcontra
      omega
  | succ n ih =>
      simp only [natCellList, List.mem_append, ih, mem_rowCells]
      constructor
      · intro hcase
        rcases hcase with hcase | hcase <;> [skip; skip] <;> omega
      · intro hcase
        by_cases hx : x < (n : Int)
        · left
          omega
        · right
          omega

lemma mem_cellList (w h : Int) (x y : Int) :
    (x, y) ∈ cellList w h ↔ inBounds w h x y := by
  unfold cellList
  rw [mem_natCellList]
  unfold inBounds
  omega

lemma update_oldGrid (s : Conway) : (update s).oldGrid = s.newGrid := by
  unfold update
  rw [foldl_updateStep_oldGrid]

lemma update_gridWidth (s : Conway) : (update s).gridWidth = s.gridWidth := by
  unfold update
  rw [foldl_updateStep_gridWidth]

lemma update_gridHeight (s : Conway) : (update s).gridHeight = s.gridHeight := by
  unfold update
  rw [foldl_updateStep_gridHeight]

lemma update_newGrid (s : Conway) (a b : Int) :
    (update s).newGrid a b =
      if inBounds s.gridWidth s.gridHeight a b
      then nextVal s.newGrid s.gridWidth s.gridHeight a b
      else s.oldGrid a b := by
  unfold update
  rw [foldl_updateStep_newGrid]
  simp only [mem_cellList]

lemma randStep_snd (gen : Nat → Int) (p : Conway × Nat) (c : Int × Int) :
    (randStep gen p c).2 = p.2 + 1 := by
  simp only [randStep]
  split_ifs <;> rfl

lemma randStep_gridWidth (gen : Nat → Int) (p : Conway × Nat) (c : Int × Int) :
    (randStep gen p c).1.gridWidth = p.1.gridWidth := by
  simp only [randStep]
  split_ifs <;> rfl

lemma randStep_gridHeight (gen : Nat → Int) (p : Conway × Nat) (c : Int × Int) :
    (randStep gen p c).1.gridHeight = p.1.gridHeight := by
  simp only [randStep]
  split_ifs <;> rfl

lemma randStep_newGrid (gen : Nat → Int) (p : Conway × Nat) (c : Int × Int) (x y : Int) :
    (randStep gen p c).1.newGrid x y =
      if x = c.1 ∧ y = c.2 then (if gen p.2 = 0 then 1 else 0)
      else p.1.newGrid x y := by
  simp only [randStep]
  split_ifs <;> simp_all

lemma randStep_oldGrid (gen : Nat → Int) (p : Conway × Nat) (c : Int × Int) (x y : Int) :
    (randStep gen p c).1.oldGrid x y =
      if x = c.1 ∧ y = c.2 then (if gen p.2 = 0 then 1 else 0)
      else p.1.oldGrid x y := by
  simp only [randStep]
  split_ifs <;> simp_all

lemma foldl_randStep_snd (gen : Nat → Int) (l : List (Int × Int)) (p : Conway × Nat) :
    (l.foldl (randStep gen) p).2 = p.2 + l.length := by
  induction l generalizing p with
  | nil => simp
  | cons c l ih =>
      rw [List.foldl_cons, ih, randStep_snd, List.length_cons]
      omega

lemma foldl_randStep_gridWidth (gen : Nat → Int) (l : List (Int × Int)) (p : Conway × Nat) :
    (l.foldl (randStep gen) p).1.gridWidth = p.1.gridWidth := by
  induction l generalizing p with
  | nil => rfl
  | cons c l ih =>
      rw [List.foldl_cons, ih, randStep_gridWidth]

lemma foldl_randStep_gridHeight (gen : Nat → Int) (l : List (Int × Int)) (p : Conway × Nat) :
    (l.foldl (randStep gen) p).1.gridHeight = p.1.gridHeight := by
  induction l generalizing p with
  | nil => rfl
  | cons c l ih =>
      rw [List.foldl_cons, ih, randStep_gridHeight]

lemma rowCells_length (i : Int) (hn : Nat) : (rowCells i hn).length = hn := by
  induction hn with
  | zero => rfl
  | succ n ih => simp [rowCells, ih]

lemma natCellList_length (wn hn : Nat) : (natCellList wn hn).length = wn * hn := by
  induction wn with
  | zero => simp [natCellList]
  | succ n ih =>
      simp [natCellList, ih, rowCells_length]
      rw [Nat.succ_mul]

lemma foldl_randStep_rowCells (gen : Nat → Int) (i : Int) (hn : Nat)
    (p : Conway × Nat) (x y : Int) :
    (((rowCells i hn).foldl (randStep gen) p).1.newGrid x y =
      if x = i ∧ 0 ≤ y ∧ y < (hn : Int)
      then (if gen (p.2 + y.toNat) = 0 then 1 else 0)
      else p.1.newGrid x y) ∧
    (((rowCells i hn).foldl (randStep gen) p).1.oldGrid x y =
      if x = i ∧ 0 ≤ y ∧ y < (hn : Int)
      then (if gen (p.2 + y.toNat) = 0 then 1 else 0)
      else p.1.oldGrid x y) := by
  induction hn with
  | zero =>
      constructor <;>
        (simp only [rowCells, List.foldl_nil]
         rw [if_neg (by omega : ¬ (x = i ∧ 0 ≤ y ∧ y < ((0 : Nat) : Int)))])
  | succ n ih =>
      have hsplit : rowCells i (n + 1) = rowCells i n ++ [(i, (n : Int))] := rfl
      rw [hsplit, List.foldl_append]
      have hq2 : ((rowCells i n).foldl (randStep gen) p).2 = p.2 + n := by
        rw [foldl_randStep_snd, rowCells_length]
      constructor
      · rw [List.foldl_cons, List.foldl_nil, randStep_newGrid, hq2, ih.1]
        by_cases hlast : x = i ∧ y = (n : Int)
        · have hys : y.toNat = n := by omega
          rw [if_pos (show x = (i, (n : Int)).1 ∧ y = (i, (n : Int)).2 from hlast),
              if_pos (show x = i ∧ 0 ≤ y ∧ y < ((n + 1 : Nat) : Int) by omega), hys]
        · rw [if_neg (show ¬ (x = (i, (n : Int)).1 ∧ y = (i, (n : Int)).2) from hlast)]
          by_cases hin : x = i ∧ 0 ≤ y ∧ y < (n : Int)
          · rw [if_pos hin,
                if_pos (show x = i ∧ 0 ≤ y ∧ y < ((n + 1 : Nat) : Int) by omega)]
          · rw [if_neg hin,
                if_neg (show ¬ (x = i ∧ 0 ≤ y ∧ y < ((n + 1 : Nat) : Int)) by omega)]
      · rw [List.foldl_cons, List.foldl_nil, randStep_oldGrid, hq2, ih.2]
        by_cases hlast : x = i ∧ y = (n : Int)
        · have hys : y.toNat = n := by omega
          rw [if_pos (show x = (i, (n : Int)).1 ∧ y = (i, (n : Int)).2 from hlast),
              if_pos (show x = i ∧ 0 ≤ y ∧ y < ((n + 1 : Nat) : Int) by omega), hys]
        · rw [if_neg (show ¬ (x = (i, (n : Int)).1 ∧ y = (i, (n : Int)).2) from hlast)]
          by_cases hin : x = i ∧ 0 ≤ y ∧ y < (n : Int)
          · rw [if_pos hin,
                if_pos (show x = i ∧ 0 ≤ y ∧ y < ((n + 1 : Nat) : Int) by omega)]
          · rw [if_neg hin,
                if_neg (show ¬ (x = i ∧ 0 ≤ y ∧ y < ((n + 1 : Nat) : Int)) by omega)]

lemma foldl_randStep_natCellList (gen : Nat → Int) (wn hn : Nat)
    (p : Conway × Nat) (x y : Int) :
    (((natCellList wn hn).foldl (randStep gen) p).1.newGrid x y =
      if 0 ≤ x ∧ x < (wn : Int) ∧ 0 ≤ y ∧ y < (hn : Int)
      then (if gen (p.2 + x.toNat * hn + y.toNat) = 0 then 1 else 0)
      else p.1.newGrid x y) ∧
    (((natCellList wn hn).foldl (randStep gen) p).1.oldGrid x y =
      if 0 ≤ x ∧ x < (wn : Int) ∧ 0 ≤ y ∧ y < (hn : Int)
      then (if gen (p.2 + x.toNat * hn + y.toNat) = 0 then 1 else 0)
      else p.1.oldGrid x y) := by
  induction wn with
  | zero =>
      constructor <;>
        (simp only [natCellList, List.foldl_nil]
         rw [if_neg (by omega :
              ¬ (0 ≤ x ∧ x < ((0 : Nat) : Int) ∧ 0 ≤ y ∧ y < (hn : Int)))])
  | succ n ih =>
      have hsplit : natCellList (n + 1) hn = natCellList n hn ++ rowCells (n : Int) hn :=
        rfl
      rw [hsplit, List.foldl_append]
      have hq2 : ((natCellList n hn).foldl (randStep gen) p).2 = p.2 + n * hn := by
        rw [foldl_randStep_snd, natCellList_length]
      constructor
      · rw [(foldl_randStep_rowCells gen (n : Int) hn _ x y).1, hq2, ih.1]
        by_cases hlast : x = (n : Int) ∧ 0 ≤ y ∧ y < (hn : Int)
        · have hxs : x.toNat = n := by omega
          rw [if_pos hlast,
              if_pos (show 0 ≤ x ∧ x < ((n + 1 : Nat) : Int) ∧ 0 ≤ y ∧ y < (hn : Int)
                by omega), hxs]
        · rw [if_neg hlast]
          by_cases hin : 0 ≤ x ∧ x < (n : Int) ∧ 0 ≤ y ∧ y < (hn : Int)
          · rw [if_pos hin,
                if_pos (show 0 ≤ x ∧ x < ((n + 1 : Nat) : Int) ∧ 0 ≤ y ∧ y < (hn : Int)
                  by omega)]
          · rw [if_neg hin,
                if_neg (show ¬ (0 ≤ x ∧ x < ((n + 1 : Nat) : Int) ∧ 0 ≤ y ∧ y < (hn : Int))
                  by omega)]
      · rw [(foldl_randStep_rowCells gen (n : Int) hn _ x y).2, hq2, ih.2]
        by_cases hlast : x = (n : Int) ∧ 0 ≤ y ∧ y < (hn : Int)
        · have hxs : x.toNat = n := by omega
          rw [if_pos hlast,
              if_pos (show 0 ≤ x ∧ x < ((n + 1 : Nat) : Int) ∧ 0 ≤ y ∧ y < (hn : Int)
                by omega), hxs]
        · rw [if_neg hlast]
          by_cases hin : 0 ≤ x ∧ x < (n : Int) ∧ 0 ≤ y ∧ y < (hn : Int)
          · rw [if_pos hin,
                if_pos (show 0 ≤ x ∧ x < ((n + 1 : Nat) : Int) ∧ 0 ≤ y ∧ y < (hn : Int)
                  by omega)]
          · rw [if_neg hin,
                if_neg (show ¬ (0 ≤ x ∧ x < ((n + 1 : Nat) : Int) ∧ 0 ≤ y ∧ y < (hn : Int))
                  by omega)]

lemma randomInitialization_newGrid (gen : Nat → Int) (s : Conway) (x y : Int) :
    (randomInitialization gen s).newGrid x y =
      if inBounds s.gridWidth s.gridHeight x y
      then (if gen (x.toNat * s.gridHeight.toNat + y.toNat) = 0 then 1 else 0)
      else s.newGrid x y := by
  unfold randomInitialization cellList
  rw [(foldl_randStep_natCellList gen s.gridWidth.toNat s.gridHeight.toNat (s, 0) x y).1]
  simp only [Nat.zero_add]
  split_ifs <;> first | rfl | omega

lemma randomInitialization_oldGrid (gen : Nat → Int) (s : Conway) (x y : Int) :
    (randomInitialization gen s).oldGrid x y =
      if inBounds s.gridWidth s.gridHeight x y
      then (if gen (x.toNat * s.gridHeight.toNat + y.toNat) = 0 then 1 else 0)
      else s.oldGrid x y := by
  unfold randomInitialization cellList
  rw [(foldl_randStep_natCellList gen s.gridWidth.toNat s.gridHeight.toNat (s, 0) x y).2]
  simp only [Nat.zero_add]
  split_ifs <;> first | rfl | omega

lemma randomInitialization_gridWidth (gen : Nat → Int) (s : Conway) :
    (randomInitialization gen s).gridWidth = s.gridWidth := by
  unfold randomInitialization
  rw [foldl_randStep_gridWidth]

lemma randomInitialization_gridHeight (gen : Nat → Int) (s : Conway) :
    (randomInitialization gen s).gridHeight = s.gridHeight := by
  unfold randomInitialization
  rw [foldl_randStep_gridHeight]

lemma foldl_count_go (q : Int × Int → Prop) [DecidablePred q] :
    ∀ (l : List (Int × Int)) (n : Int),
      l.foldl (fun m c => if q c then m + 1 else m) n
        = n + (l.map fun c => if q c then (1 : Int) else 0).sum := by
  intro l
  induction l with
  | nil => simp
  | cons c l ih =>
      intro n
      rw [List.foldl_cons, List.map_cons, List.sum_cons]
      by_cases hc : q c
      · rw [if_pos hc, ih, if_pos hc]
        ring
      · rw [if_neg hc, ih, if_neg hc]
        ring

lemma countFrom_expand (g : Int → Int → Int) (w h i j : Int) :
    countFrom g w h i j =
      (if g (wrapCoord w (i + 0)) (wrapCoord h (j + 1)) = 1 then (1 : Int) else 0)
    + (if g (wrapCoord w (i + 0)) (wrapCoord h (j + -1)) = 1 then (1 : Int) else 0)
    + (if g (wrapCoord w (i + 1)) (wrapCoord h (j + 0)) = 1 then (1 : Int) else 0)
    + (if g (wrapCoord w (i + -1)) (wrapCoord h (j + 0)) = 1 then (1 : Int) else 0)
    + (if g (wrapCoord w (i + 1)) (wrapCoord h (j + 1)) = 1 then (1 : Int) else 0)
    + (if g (wrapCoord w (i + -1)) (wrapCoord h (j + -1)) = 1 then (1 : Int) else 0)
    + (if g (wrapCoord w (i + 1)) (wrapCoord h (j + -1)) = 1 then (1 : Int) else 0)
    + (if g (wrapCoord w (i + -1)) (wrapCoord h (j + 1)) = 1 then (1 : Int) else 0) := by
  have hgo := foldl_count_go
    (fun cc : Int × Int => g (wrapCoord w (i + cc.1)) (wrapCoord h (j + cc.2)) = 1)
    coords 0
  calc countFrom g w h i j
      = 0 + (coords.map fun cc : Int × Int =>
          if g (wrapCoord w (i + cc.1)) (wrapCoord h (j + cc.2)) = 1
          then (1 : Int) else 0).sum := hgo
    _ = _ := by
        simp only [coords, List.map_cons, List.map_nil, List.sum_cons, List.sum_nil]
        ring

lemma blockInd_mul (a b u v : Int) :
    (if blockGrid a b u v = 1 then (1 : Int) else 0) =
      (if u = a ∨ u = a + 1 then (1 : Int) else 0) *
      (if v = b ∨ v = b + 1 then (1 : Int) else 0) := by
  unfold blockGrid
  by_cases hu : u = a ∨ u = a + 1 <;> by_cases hv : v = b ∨ v = b + 1 <;>
    simp [hu, hv]

lemma countFrom_block (w h a b i j : Int) :
    countFrom (blockGrid a b) w h i j =
      (axInd w a (i + -1) + axInd w a (i + 0) + axInd w a (i + 1)) *
        (axInd h b (j + -1) + axInd h b (j + 0) + axInd h b (j + 1))
      - axInd w a (i + 0) * axInd h b (j + 0) := by
  rw [countFrom_expand]
  simp only [blockInd_mul]
  simp only [axInd]
  ring

lemma wrapCoord_id (d v : Int) (h1 : 0 ≤ v) (h2 : v < d) : wrapCoord d v = v := by
  unfold wrapCoord
  rw [if_neg (by omega), if_neg (by omega)]

lemma wrapCoord_neg (d v : Int) (h1 : v < 0) : wrapCoord d v = d - 1 + v := by
  unfold wrapCoord
  rw [if_pos h1]

lemma wrapCoord_ge (d v : Int) (h0 : ¬ v < 0) (h1 : d ≤ v) : wrapCoord d v = v % d := by
  unfold wrapCoord
  rw [if_neg h0, if_pos h1]

lemma axSum_le_two (w a i : Int) (hw : 4 ≤ w) (ha1 : 1 ≤ a) (ha2 : a + 1 ≤ w - 2)
    (hi : 0 ≤ i) (hi2 : i < w) :
    0 ≤ axInd w a (i + -1) + axInd w a (i + 0) + axInd w a (i + 1) ∧
    axInd w a (i + -1) + axInd w a (i + 0) + axInd w a (i + 1) ≤ 2 := by
  unfold axInd
  by_cases hi0 : i + -1 < 0
  · rw [wrapCoord_neg w (i + -1) hi0,
        wrapCoord_id w (i + 0) (by omega) (by omega),
        wrapCoord_id w (i + 1) (by omega) (by omega)]
    split_ifs <;> omega
  · by_cases hiw : w ≤ i + 1
    · have hv : wrapCoord w (i + 1) = (i + 1) % w := wrapCoord_ge w (i + 1) (by omega) hiw
      have hww : i + 1 = w := by omega
      have hw0 : (i + 1) % w = 0 := by
        rw [hww, Int.emod_self]
      rw [wrapCoord_id w (i + -1) (by omega) (by omega),
          wrapCoord_id w (i + 0) (by omega) (by omega), hv, hw0]
      split_ifs <;> omega
    · rw [wrapCoord_id w (i + -1) (by omega) (by omega),
          wrapCoord_id w (i + 0) (by omega) (by omega),
          wrapCoord_id w (i + 1) (by omega) (by omega)]
      split_ifs <;> omega

lemma axSum_eq_two (w a i : Int) (hw : 4 ≤ w) (ha1 : 1 ≤ a) (ha2 : a + 1 ≤ w - 2)
    (hia : i = a ∨ i = a + 1) :
    axInd w a (i + -1) + axInd w a (i + 0) + axInd w a (i + 1) = 2 := by
  unfold axInd
  rw [wrapCoord_id w (i + -1) (by omega) (by omega),
      wrapCoord_id w (i + 0) (by omega) (by omega),
      wrapCoord_id w (i + 1) (by omega) (by omega)]
  split_ifs <;> omega

lemma axInd_center (w a i : Int) (hi : 0 ≤ i) (hi2 : i < w) :
    axInd w a (i + 0) = if i = a ∨ i = a + 1 then (1 : Int) else 0 := by
  unfold axInd
  rw [wrapCoord_id w (i + 0) (by omega) (by omega)]
  split_ifs <;> omega

lemma nextVal_block (w h a b i j : Int)
    (hw : 4 ≤ w) (hh : 4 ≤ h) (ha1 : 1 ≤ a) (ha2 : a + 1 ≤ w - 2)
    (hb1 : 1 ≤ b) (hb2 : b + 1 ≤ h - 2)
    (hi : 0 ≤ i) (hi2 : i < w) (hj : 0 ≤ j) (hj2 : j < h) :
    nextVal (blockGrid a b) w h i j = blockGrid a b i j := by
  have hcA := axInd_center w a i hi hi2
  have hcB := axInd_center h b j hj hj2
  by_cases halive : (i = a ∨ i = a + 1) ∧ (j = b ∨ j = b + 1)
  · have hg : blockGrid a b i j = 1 := by
      unfold blockGrid
      rw [if_pos halive]
    have hc : countFrom (blockGrid a b) w h i j = 3 := by
      rw [countFrom_block, axSum_eq_two w a i hw ha1 ha2 halive.1,
          axSum_eq_two h b j hh hb1 hb2 halive.2, hcA, hcB,
          if_pos halive.1, if_pos halive.2]
      norm_num
    simp only [nextVal]
    rw [hc, hg]
    norm_num
  · have hg : blockGrid a b i j = 0 := by
      unfold blockGrid
      rw [if_neg halive]
    have hcenter : axInd w a (i + 0) * axInd h b (j + 0) = 0 := by
      rw [hcA, hcB]
      by_cases h1 : i = a ∨ i = a + 1
      · by_cases h2 : j = b ∨ j = b + 1
        · exact absurd ⟨h1, h2⟩ halive
        · rw [if_neg h2, mul_zero]
      · rw [if_neg h1, zero_mul]
    have hcne3 : countFrom (blockGrid a b) w h i j ≠ 3 := by
      rw [countFrom_block, hcenter, sub_zero]
      have hA := axSum_le_two w a i hw ha1 ha2 hi hi2
      have hB := axSum_le_two h b j hh hb1 hb2 hj hj2
      set AX := axInd w a (i + -1) + axInd w a (i + 0) + axInd w a (i + 1) with hAX
      set BY := axInd h b (j + -1) + axInd h b (j + 0) + axInd h b (j + 1) with hBY
      have h0A : AX = 0 ∨ AX = 1 ∨ AX = 2 := by omega
      have h0B : BY = 0 ∨ BY = 1 ∨ BY = 2 := by omega
      rcases h0A with h | h | h <;> rcases h0B with h2 | h2 | h2 <;>
        rw [h, h2] <;> norm_num
    simp only [nextVal]
    rw [hg]
    rw [if_neg (by simp), if_neg (fun hand => hcne3 hand.2), if_neg (by simp)]

lemma blockState_newGrid (w h a b : Int) :
    (blockState w h a b).newGrid = blockGrid a b := rfl

lemma update_blockState (w h a b : Int)
    (hw : 4 ≤ w) (hh : 4 ≤ h) (ha1 : 1 ≤ a) (ha2 : a + 1 ≤ w - 2)
    (hb1 : 1 ≤ b) (hb2 : b + 1 ≤ h - 2) :
    update (blockState w h a b) = blockState w h a b := by
  apply Conway.ext
  · rw [update_gridWidth]
  · rw [update_gridHeight]
  · funext x y
    rw [update_newGrid]
    by_cases hxy : inBounds w h x y
    · rw [if_pos (show inBounds (blockState w h a b).gridWidth
          (blockState w h a b).gridHeight x y from hxy)]
      exact nextVal_block w h a b x y hw hh ha1 ha2 hb1 hb2
        hxy.1 hxy.2.1 hxy.2.2.1 hxy.2.2.2
    · rw [if_neg (show ¬ inBounds (blockState w h a b).gridWidth
          (blockState w h a b).gridHeight x y from hxy)]
      rfl
  · rw [update_oldGrid]
    rfl

/-- C1: for every engine state and every cell (i,j) of the grid, one
call of Conway::update writes the cell's next-generation value as a
function of its previous-generation value (its value in the promoted
read-source buffer, i.e. the pre-call newGrid) and the computed
live-neighbor count n: the cell becomes 1 exactly when (it was alive and
n is 2 or 3) or (it was dead and n is exactly 3), and 0 in every other
case. -/
theorem step_applies_rule (s : Conway) (i j : Int)
    (hij : inBounds s.gridWidth s.gridHeight i j) :
    (update s).newGrid i j =
      if (s.newGrid i j ≠ 0 ∧
            (countFrom s.newGrid s.gridWidth s.gridHeight i j = 2 ∨
             countFrom s.newGrid s.gridWidth s.gridHeight i j = 3)) ∨
         (s.newGrid i j = 0 ∧ countFrom s.newGrid s.gridWidth s.gridHeight i j = 3)
      then 1 else 0 := by
  rw [update_newGrid, if_pos hij]
  simp only [nextVal]
  split_ifs <;> first | rfl | tauto

theorem step_applies_rule_witness :
    inBounds exEngine.gridWidth exEngine.gridHeight 1 1 ∧
    (update exEngine).newGrid 1 1 =
      (if (exEngine.newGrid 1 1 ≠ 0 ∧
            (countFrom exEngine.newGrid exEngine.gridWidth exEngine.gridHeight 1 1 = 2 ∨
             countFrom exEngine.newGrid exEngine.gridWidth exEngine.gridHeight 1 1 = 3)) ∨
         (exEngine.newGrid 1 1 = 0 ∧
            countFrom exEngine.newGrid exEngine.gridWidth exEngine.gridHeight 1 1 = 3)
      then 1 else 0) :=
  ⟨by decide, step_applies_rule exEngine 1 1 (by decide)⟩

/-- C2: the claim says verifyCoordBounds maps a coordinate one step
below 0 to dimension − 1, so that on a 3×3 grid the neighbor offset
(-1,-1) taken from cell (0,0) normalizes to (2,2).  The code computes
gridWidth - 1 + x for x < 0, so -1 is mapped to dimension − 2: on the
3×3 grid the coordinate (-1,-1) normalizes to (1,1), not (2,2). -/
theorem wrap_negative_off_by_one :
    verifyCoordBounds 3 3 { x := -1, y := -1 } = { x := 1, y := 1 } ∧
    verifyCoordBounds 3 3 { x := -1, y := -1 } ≠ { x := 2, y := 2 } := by
  decide

/-- C3: during one call of Conway::update the read-source buffer (the
buffer promoted by the initial swap, holding the pre-call newGrid
contents) is never written — after the call the oldGrid slot still holds
exactly the pre-call newGrid — and the value written at every in-bounds
cell is nextVal of the read-source buffer alone, a pure function of
previous-generation values, so no read during the step can observe a
value written earlier in the same step. -/
theorem step_reads_only_previous_generation (s : Conway) :
    (update s).oldGrid = s.newGrid ∧
    ∀ i j : Int, inBounds s.gridWidth s.gridHeight i j →
      (update s).newGrid i j = nextVal s.newGrid s.gridWidth s.gridHeight i j := by
  refine ⟨update_oldGrid s, ?_⟩
  intro i j hij
  rw [update_newGrid, if_pos hij]

theorem step_reads_only_previous_generation_witness :
    (update exEngine).oldGrid = exEngine.newGrid ∧
    (update exEngine).newGrid 0 0 =
      nextVal exEngine.newGrid exEngine.gridWidth exEngine.gridHeight 0 0 :=
  ⟨(step_reads_only_previous_generation exEngine).1,
   (step_reads_only_previous_generation exEngine).2 0 0 (by decide)⟩

/-- C4 counterexample: the claim says construction with a non-positive
dimension is rejected as a distinct validation failure; but the
constructor performs no validation, and width 0 (non-positive) is
accepted: construction proceeds and yields an engine with empty grids. -/
theorem construct_zero_width_not_rejected :
    construct 0 3 = Except.ok (conwayInit 0 3) := by
  unfold construct
  rw [if_neg (by omega), if_neg (by omega)]

/-- C4 amended: the constructor performs no input validation.  Any
nonnegative dimensions (including 0) are accepted, and the resulting
engine has two width × height all-dead grids; a negative dimension
fails only inside the std::vector allocation (length error), not as a
prior validation step. -/
theorem construct_behavior (w h : Int) :
    (0 ≤ w → 0 ≤ h → construct w h = Except.ok (conwayInit w h)) ∧
    (w < 0 ∨ h < 0 → construct w h = Except.error AllocError.lengthError) ∧
    (∀ i j : Int, (conwayInit w h).newGrid i j = 0 ∧ (conwayInit w h).oldGrid i j = 0) := by
  refine ⟨?_, ?_, ?_⟩
  · intro hw hh
    unfold construct
    rw [if_neg (by omega), if_neg (by omega)]
  · intro hcase
    unfold construct
    by_cases hh : h < 0
    · rw [if_pos hh]
    · rw [if_neg hh, if_pos (by omega)]
  · intro i j
    exact ⟨rfl, rfl⟩

theorem construct_behavior_witness :
    (0 : Int) ≤ 5 ∧ (0 : Int) ≤ 7 ∧ construct 5 7 = Except.ok (conwayInit 5 7) :=
  ⟨by decide, by decide, (construct_behavior 5 7).1 (by decide) (by decide)⟩

/-- C5: the claim says that on a 1×1 grid every neighbor offset, after
normalization, resolves in-bounds to the lone cell (0,0).  But for the
offset (-1,0) taken from (0,0) the code computes x = 1 - 1 + (-1) = -1:
the normalized coordinate is still -1, out of bounds, so the subsequent
vector read does not resolve to the lone cell (it indexes the vector at
-1, undefined behavior). -/
theorem one_by_one_wrap_out_of_bounds :
    verifyCoordBounds 1 1 { x := 0 + -1, y := 0 + 0 } = { x := -1, y := 0 } ∧
    ¬ (0 ≤ (verifyCoordBounds 1 1 { x := 0 + -1, y := 0 + 0 }).x) := by
  decide

/-- C6: after randomInitialization with any draw sequence gen bounded by
a sparseness ≥ 1, every in-bounds cell of both buffers has been
overwritten: its value is determined by its own draw alone (1 exactly
when the draw is 0), the same value sits in both buffers, and hence the
current and next grids are equal immediately after the call, regardless
of the prior state. -/
theorem randomize_overwrites_both_buffers (s : Conway) (sparseness : Int)
    (gen : Nat → Int) (hsp : 1 ≤ sparseness)
    (hgen : ∀ k : Nat, 0 ≤ gen k ∧ gen k ≤ sparseness)
    (i j : Int) (hij : inBounds s.gridWidth s.gridHeight i j) :
    (randomInitialization gen s).newGrid i j =
      (if gen (i.toNat * s.gridHeight.toNat + j.toNat) = 0 then 1 else 0) ∧
    (randomInitialization gen s).oldGrid i j =
      (randomInitialization gen s).newGrid i j := by
  have hnew := randomInitialization_newGrid gen s i j
  have hold := randomInitialization_oldGrid gen s i j
  rw [if_pos hij] at hnew hold
  exact ⟨hnew, by rw [hnew, hold]⟩

theorem randomize_overwrites_both_buffers_witness :
    (1 : Int) ≤ 1 ∧
    ((randomInitialization (fun _ => 1) exEngine).newGrid 0 0 =
      (if (fun _ : Nat => (1 : Int))
            ((0 : Int).toNat * exEngine.gridHeight.toNat + (0 : Int).toNat) = 0
       then 1 else 0) ∧
     (randomInitialization (fun _ => 1) exEngine).oldGrid 0 0 =
      (randomInitialization (fun _ => 1) exEngine).newGrid 0 0) :=
  ⟨by decide,
   randomize_overwrites_both_buffers exEngine 1 (fun _ => 1) (by decide)
     (fun _ => ⟨(by decide : (0 : Int) ≤ 1), (by decide : (1 : Int) ≤ 1)⟩)
     0 0 (by decide)⟩

/-- C7: for every grid of size at least 4×4 whose two buffers both hold
a 2×2 block of live cells placed in the interior (corner (a,b) with
1 ≤ a, a+1 ≤ w-2, 1 ≤ b, b+1 ≤ h-2) and all other cells dead, the state
is a fixed point of Conway::update: any number of calls leaves the
engine unchanged. -/
theorem block_still_life (w h a b : Int)
    (hw : 4 ≤ w) (hh : 4 ≤ h) (ha1 : 1 ≤ a) (ha2 : a + 1 ≤ w - 2)
    (hb1 : 1 ≤ b) (hb2 : b + 1 ≤ h - 2) (n : Nat) :
    update^[n] (blockState w h a b) = blockState w h a b := by
  induction n with
  | zero => rfl
  | succ m ih =>
      rw [Function.iterate_succ_apply,
          update_blockState w h a b hw hh ha1 ha2 hb1 hb2, ih]

theorem block_still_life_witness :
    (4 : Int) ≤ 4 ∧ (1 : Int) ≤ 1 ∧ (1 : Int) + 1 ≤ 4 - 2 ∧
    update^[2] (blockState 4 4 1 1) = blockState 4 4 1 1 :=
  ⟨by decide, by decide, by decide,
   block_still_life 4 4 1 1 (by decide) (by decide) (by decide) (by decide)
     (by decide) (by decide) 2⟩

/-- C8: two engines with identical dimensions (and, as for any engine
the constructor can produce, no cell values outside the grids), seeded
by randomInitialization with the same draw stream and then advanced by
the same number of update calls, hold identical grids at every in-bounds
cell of both buffers: the engine's operations are deterministic
functions of their inputs and state. -/
theorem engines_deterministic (s1 s2 : Conway)
    (hw : s1.gridWidth = s2.gridWidth) (hh : s1.gridHeight = s2.gridHeight)
    (hz1 : outZero s1) (hz2 : outZero s2)
    (gen : Nat → Int) (n : Nat) (i j : Int)
    (hij : inBounds s1.gridWidth s1.gridHeight i j) :
    (update^[n] (randomInitialization gen s1)).newGrid i j =
      (update^[n] (randomInitialization gen s2)).newGrid i j ∧
    (update^[n] (randomInitialization gen s1)).oldGrid i j =
      (update^[n] (randomInitialization gen s2)).oldGrid i j := by
  have hstate : randomInitialization gen s1 = randomInitialization gen s2 := by
    apply Conway.ext
    · rw [randomInitialization_gridWidth, randomInitialization_gridWidth, hw]
    · rw [randomInitialization_gridHeight, randomInitialization_gridHeight, hh]
    · funext x y
      rw [randomInitialization_newGrid, randomInitialization_newGrid]
      by_cases hb : inBounds s1.gridWidth s1.gridHeight x y
      · rw [if_pos hb, if_pos (show inBounds s2.gridWidth s2.gridHeight x y by
            rw [← hw, ← hh]; exact hb), hh]
      · rw [if_neg hb, if_neg (show ¬ inBounds s2.gridWidth s2.gridHeight x y by
            rw [← hw, ← hh]; exact hb)]
        rw [(hz1 x y hb).1, (hz2 x y (by rw [← hw, ← hh]; exact hb)).1]
    · funext x y
      rw [randomInitialization_oldGrid, randomInitialization_oldGrid]
      by_cases hb : inBounds s1.gridWidth s1.gridHeight x y
      · rw [if_pos hb, if_pos (show inBounds s2.gridWidth s2.gridHeight x y by
            rw [← hw, ← hh]; exact hb), hh]
      · rw [if_neg hb, if_neg (show ¬ inBounds s2.gridWidth s2.gridHeight x y by
            rw [← hw, ← hh]; exact hb)]
        rw [(hz1 x y hb).2, (hz2 x y (by rw [← hw, ← hh]; exact hb)).2]
  rw [hstate]
  exact ⟨rfl, rfl⟩

theorem engines_deterministic_witness :
    outZero (conwayInit 2 2) ∧
    ((update^[1] (randomInitialization (fun _ => 0) (conwayInit 2 2))).newGrid 0 0 =
      (update^[1] (randomInitialization (fun _ => 0) (conwayInit 2 2))).newGrid 0 0 ∧
     (update^[1] (randomInitialization (fun _ => 0) (conwayInit 2 2))).oldGrid 0 0 =
      (update^[1] (randomInitialization (fun _ => 0) (conwayInit 2 2))).oldGrid 0 0) :=
  ⟨fun _ _ _ => ⟨rfl, rfl⟩,
   engines_deterministic (conwayInit 2 2) (conwayInit 2 2) rfl rfl
     (fun _ _ _ => ⟨rfl, rfl⟩) (fun _ _ _ => ⟨rfl, rfl⟩)
     (fun _ => 0) 1 0 0 (by decide)⟩

/-- C9: randomInitialization draws from a freshly default-seeded engine
on every invocation, so for a fixed sparseness the draw stream is the
same fixed sequence on every call: any two calls with the same
sparseness on engines of the same dimensions produce the identical
in-bounds grid contents in both buffers, whatever the two prior states
were — in particular the externally triggered reset restores the exact
same initial pattern instead of a fresh random one. -/
theorem default_seed_reset_determinism (defaultGen : Int → Nat → Int)
    (sparseness : Int) (s1 s2 : Conway)
    (hw : s1.gridWidth = s2.gridWidth) (hh : s1.gridHeight = s2.gridHeight)
    (i j : Int) (hij : inBounds s1.gridWidth s1.gridHeight i j) :
    (randomInitialization (defaultGen sparseness) s1).newGrid i j =
      (randomInitialization (defaultGen sparseness) s2).newGrid i j ∧
    (randomInitialization (defaultGen sparseness) s1).oldGrid i j =
      (randomInitialization (defaultGen sparseness) s2).oldGrid i j := by
  have hij2 : inBounds s2.gridWidth s2.gridHeight i j := by
    rw [← hw, ← hh]
    exact hij
  constructor
  · rw [randomInitialization_newGrid, randomInitialization_newGrid,
        if_pos hij, if_pos hij2, hh]
  · rw [randomInitialization_oldGrid, randomInitialization_oldGrid,
        if_pos hij, if_pos hij2, hh]

theorem default_seed_reset_determinism_witness :
    (randomInitialization ((fun sp _ => sp) (2 : Int)) exEngine).newGrid 1 1 =
      (randomInitialization ((fun sp _ => sp) (2 : Int)) (conwayInit 3 3)).newGrid 1 1 ∧
    (randomInitialization ((fun sp _ => sp) (2 : Int)) exEngine).oldGrid 1 1 =
      (randomInitialization ((fun sp _ => sp) (2 : Int)) (conwayInit 3 3)).oldGrid 1 1 :=
  default_seed_reset_determinism (fun sp _ => sp) 2 exEngine (conwayInit 3 3)
    rfl rfl 1 1 (by decide)

/-- C10: every cell of both buffers always holds exactly 0 or 1: the
constructor initializes every cell to 0; randomInitialization writes
only 0 or 1 into every cell of both buffers, unconditionally; and
update writes only 0 or 1 into every cell of the write target, so the
invariant is preserved by every operation even though the cell type is
a general integral type. -/
theorem cells_are_boolean :
    (∀ w h : Int, boolInv (conwayInit w h)) ∧
    (∀ (gen : Nat → Int) (s : Conway), boolInv (randomInitialization gen s)) ∧
    (∀ s : Conway, boolInv s → boolInv (update s)) := by
  refine ⟨?_, ?_, ?_⟩
  · intro w h i j _
    exact ⟨Or.inl rfl, Or.inl rfl⟩
  · intro gen s i j hij
    rw [randomInitialization_gridWidth, randomInitialization_gridHeight] at hij
    constructor
    · rw [randomInitialization_newGrid, if_pos hij]
      split_ifs <;> simp
    · rw [randomInitialization_oldGrid, if_pos hij]
      split_ifs <;> simp
  · intro s hs i j hij
    rw [update_gridWidth, update_gridHeight] at hij
    constructor
    · rw [update_newGrid, if_pos hij]
      simp only [nextVal]
      split_ifs <;> simp
    · rw [update_oldGrid]
      exact (hs i j hij).1

theorem cells_are_boolean_witness :
    boolInv (conwayInit 2 2) ∧ boolInv (update (conwayInit 2 2)) :=
  ⟨fun _ _ _ => ⟨Or.inl rfl, Or.inl rfl⟩,
   cells_are_boolean.2.2 (conwayInit 2 2)
     (fun _ _ _ => ⟨Or.inl rfl, Or.inl rfl⟩)⟩
